import Mathlib

/-!
Verification of the Gerrit MCP server's change/revision/diff core.

The development shallowly embeds the Python sources:
  - `src/data/gerrit_api.py`        (`make_gerrit_rest_request`)
  - `src/servers/gerrit_service.py` (`fetch_gerrit_change`, `fetch_patchset_diff`,
                                     `get_repository_path_from_change`)
  - `src/providers/gerrit_provider.py` duplicates the two fetch functions line for
    line (its try/except blocks log and re-raise, leaving behaviour unchanged), so a
    single embedding covers both copies.

Modelling conventions:
  - Python dicts are embedded as association lists in insertion order (Python dicts
    preserve insertion order and have unique keys; uniqueness is taken as a
    hypothesis only where a theorem needs it).
  - Python `str` fields read with `.get` are embedded as `String`, with `""` playing
    the role of both the empty string and an absent value: every use in the sources
    is either a truthiness test (`if not x`) or an interpolation, and both treat
    `None` and `""` alike for the properties proved here.
  - Exceptions become `Except`; each distinct `raise` site gets its own error
    constructor carrying the structured content of its message.
  - The network is an explicit environment: the service layer receives typed
    oracles for the three JSON response shapes that `make_gerrit_rest_request`
    can hand back (change detail, file-status map, file diff), and the HTTP
    primitive itself is modelled separately over a raw response environment.
-/

namespace Gerrit

/-! ### Python string ordering

Python compares strings lexicographically by Unicode code point, and `sorted` on a
list of strings returns the unique permutation that is sorted for that (total,
antisymmetric) order.  `charListLe` is that code-point order; `pySorted` realises
`sorted` by structural insertion sort, which produces exactly the sorted
permutation. -/

def charListLe : List Char → List Char → Bool
  | [], _ => true
  | _ :: _, [] => false
  | a :: as, b :: bs =>
    if a.toNat < b.toNat then true
    else if b.toNat < a.toNat then false
    else charListLe as bs

def pyStrLe (a b : String) : Bool := charListLe a.toList b.toList

def pySorted (l : List String) : List String :=
  List.insertionSort (fun a b => pyStrLe a b = true) l

theorem charListLe_total (x y : List Char) :
    charListLe x y = true ∨ charListLe y x = true := by
  induction x generalizing y with
  | nil => left; rfl
  | cons c cs ih =>
    cases y with
    | nil => right; rfl
    | cons d ds =>
      by_cases h1 : c.toNat < d.toNat
      · left; simp [charListLe, h1]
      · by_cases h2 : d.toNat < c.toNat
        · right; simp [charListLe, h1, h2]
        · rcases ih ds with h | h
          · left; simpa [charListLe, h1, h2] using h
          · right; simpa [charListLe, h1, h2] using h

theorem charListLe_trans {x y z : List Char} (h1 : charListLe x y = true)
    (h2 : charListLe y z = true) : charListLe x z = true := by
  induction x generalizing y z with
  | nil => rfl
  | cons a as ih =>
    cases y with
    | nil => simp [charListLe] at h1
    | cons b bs =>
      cases z with
      | nil => simp [charListLe] at h2
      | cons c cs =>
        simp only [charListLe] at h1 h2 ⊢
        by_cases hab : a.toNat < b.toNat
        · by_cases hbc : b.toNat < c.toNat
          · simp only [if_pos (show a.toNat < c.toNat by omega)]
          · simp only [if_neg hbc] at h2
            by_cases hcb : c.toNat < b.toNat
            · simp [hcb] at h2
            · simp only [if_pos (show a.toNat < c.toNat by omega)]
        · simp only [if_neg hab] at h1
          by_cases hba : b.toNat < a.toNat
          · simp [hba] at h1
          · simp only [if_neg hba] at h1
            by_cases hbc : b.toNat < c.toNat
            · simp only [if_pos (show a.toNat < c.toNat by omega)]
            · simp only [if_neg hbc] at h2
              by_cases hcb : c.toNat < b.toNat
              · simp [hcb] at h2
              · simp only [if_neg hcb] at h2
                have hac : ¬ a.toNat < c.toNat := by omega
                have hca : ¬ c.toNat < a.toNat := by omega
                simp only [if_neg hac, if_neg hca]
                exact ih h1 h2

instance : IsTotal String (fun a b => pyStrLe a b = true) :=
  ⟨fun a b => charListLe_total a.toList b.toList⟩

instance : IsTrans String (fun a b => pyStrLe a b = true) :=
  ⟨fun _ _ _ h1 h2 => charListLe_trans h1 h2⟩

theorem pySorted_perm (l : List String) : (pySorted l).Perm l :=
  List.perm_insertionSort _ l

theorem pySorted_sorted (l : List String) :
    List.Sorted (fun a b => pyStrLe a b = true) (pySorted l) :=
  List.sorted_insertionSort _ l

theorem pySorted_nodup {l : List String} (h : l.Nodup) : (pySorted l).Nodup :=
  ((pySorted_perm l).nodup_iff).mpr h

/-! ### Data model

`ChangeDetail` is the parsed JSON of `GET changes/{id}/detail`; `RevisionInfo` one
entry of its `revisions` dict (`number` embeds the `_number` field); `FileInfo`
one entry of a files dict.  Fields the Python code reads with `.get(key, default)`
are embedded with the default already applied. -/

structure FileInfo where
  status : String
  lines_inserted : Int
  lines_deleted : Int
  size_delta : Int
deriving DecidableEq

structure RevisionInfo where
  number : Int
  files : List (String × FileInfo)
deriving DecidableEq

structure ChangeDetail where
  project : String
  current_revision : String
  revisions : List (String × RevisionInfo)
deriving DecidableEq

/-- Errors of `make_gerrit_rest_request` (`src/data/gerrit_api.py`): the
missing-credential `ValueError`, the fixed-message 401 `Exception`, the wrapper
around `requests` transport failures (carrying the HTTP status), and the JSON
decode failure. -/
inductive ApiError where
  | configError : ApiError
  | authError (msg : String) : ApiError
  | transportError (status : Nat) : ApiError
  | parseError : ApiError
deriving DecidableEq

/-- Errors of the service layer (`src/servers/gerrit_service.py`), one constructor
per `raise` site, carrying the structured content of the raised message. -/
inductive GerritError where
  | api (e : ApiError) : GerritError
  | changeNotFound (change_id : String) : GerritError
  | projectNotFound : GerritError
  | patchsetNotFound (requested : String) (available : List String) : GerritError
  | patchsetsNotFound (available : List String) : GerritError
  | revisionNotFound : GerritError
  | indexOutOfRange : GerritError
  | urlDerivation (msg : String) : GerritError
deriving DecidableEq

instance {ε α : Type} [DecidableEq ε] [DecidableEq α] : DecidableEq (Except ε α) := by
  intro a b
  cases a <;> cases b
  case error.error x y => exact decidable_of_iff (x = y) (by simp)
  case ok.ok x y => exact decidable_of_iff (x = y) (by simp)
  all_goals exact isFalse (by simp)

/-! ### Revision resolution (`fetch_gerrit_change`, lines 101-117)

Python truthiness of an `Optional[str]`: `None` and `""` are falsy. -/

def optTruthy : Option String → Bool
  | none => false
  | some s => s != ""

/-- Linear scan with `break`: the first revision whose `_number` stringifies equal
to the requested patchset number. -/
def findRevisionByNumber (pn : String) : List (String × RevisionInfo) → Option String
  | [] => none
  | (rev, info) :: rest =>
    if toString info.number = pn then some rev else findRevisionByNumber pn rest

/-- Embeds `sorted([str(info.get("_number")) for info in revisions.values()])`. -/
def availablePatchsets (revisions : List (String × RevisionInfo)) : List String :=
  pySorted (revisions.map (fun kv => toString kv.2.number))

/-- Embeds lines 101-117 of `fetch_gerrit_change`: choose `target_revision` from
the optional patchset number (falling back to `current_revision`), then the
defensive `if not target_revision or target_revision not in revisions` check. -/
def resolveRevision (ci : ChangeDetail) (patchset_number : Option String) :
    Except GerritError String :=
  let target : Except GerritError String :=
    if optTruthy patchset_number then
      let p := patchset_number.getD ""
      match findRevisionByNumber p ci.revisions with
      | some rev =>
        if rev = "" then .error (.patchsetNotFound p (availablePatchsets ci.revisions))
        else .ok rev
      | none => .error (.patchsetNotFound p (availablePatchsets ci.revisions))
    else .ok ci.current_revision
  match target with
  | .error e => .error e
  | .ok t =>
    if (t == "") || !(ci.revisions.any (fun kv => kv.1 == t)) then .error .revisionNotFound
    else .ok t

/-! ### HTTP request primitive (`src/data/gerrit_api.py`)

The raw network is an environment `http : String → HttpResponse` mapping the built
URL to the response `requests.get` returns, and the JSON decoder a function
`parse : List Char → Option δ` standing for `json.loads` (stdlib, outside src/). -/

structure GerritContext where
  host : String
  user : String
  http_password : String
deriving DecidableEq

structure HttpResponse where
  status : Nat
  body : List Char
deriving DecidableEq

def magicQuote : Char := Char.ofNat 39

def rightBrace : Char := Char.ofNat 125

def leftBrace : Char := Char.ofNat 123

/-- The anti-JSON-hijacking guard Gerrit prepends to every JSON body. -/
def magicChars : List Char := [')', ']', rightBrace, magicQuote]

/-- Embeds `if content.startswith(")]}'"): content = content[4:]`. -/
def stripMagic (body : List Char) : List Char :=
  match body with
  | a :: b :: c :: d :: rest =>
    if a = ')' ∧ b = ']' ∧ c = rightBrace ∧ d = magicQuote then rest else body
  | _ => body

def isJsonWs (c : Char) : Bool :=
  c == ' ' || c == '\t' || c == '\n' || c == '\r'

def jsonStartChars : List Char :=
  [leftBrace, '[', '"', 't', 'f', 'n', '-', '0', '1', '2', '3', '4', '5', '6', '7', '8', '9']

/-- Modelled from the spec: the JSON decoding step (`json.loads`, Python standard
library, not part of src/) parses the remainder as structured JSON data.  A valid
JSON document consists of optional whitespace followed by a value, and a value
begins with one of `jsonStartChars` — never with `)`.  `couldBeJson` is that
necessary condition on a body that parses successfully. -/
def couldBeJson (j : List Char) : Bool :=
  match j.dropWhile isJsonWs with
  | [] => false
  | c :: _ => jsonStartChars.contains c

def strStartsWith (s pre : String) : Bool := pre.toList.isPrefixOf s.toList

/-- Message of the fixed `Exception` raised on HTTP 401. -/
def authFailedMsg : String :=
  "Authentication failed. Please check your Gerrit HTTP password in your account settings."

def buildUrl (host ep : String) : String :=
  if strStartsWith host "http://" || strStartsWith host "https://" then host ++ "/" ++ ep
  else "https://" ++ host ++ "/" ++ ep

/-- Embeds the `a/` endpoint normalization of `make_gerrit_rest_request`. -/
def gerritEndpointNorm (endpoint : String) : String :=
  if strStartsWith endpoint "a/" then endpoint else "a/" ++ endpoint

/-- Embeds the response handling of `make_gerrit_rest_request`: the 401 check,
`raise_for_status` on 4xx/5xx (re-raised as the transport failure wrapper),
magic-prefix strip, then JSON decode. -/
def handleResponse {δ : Type} (resp : HttpResponse) (parse : List Char → Option δ) :
    Except ApiError δ :=
  if resp.status = 401 then .error (.authError authFailedMsg)
  else if 400 ≤ resp.status then .error (.transportError resp.status)
  else
    match parse (stripMagic resp.body) with
    | some v => .ok v
    | none => .error .parseError

/-- Embeds `make_gerrit_rest_request`: credential check, `a/` endpoint
normalization, URL building, then response handling. -/
def make_gerrit_rest_request {δ : Type} (gctx : GerritContext) (endpoint : String)
    (http : String → HttpResponse) (parse : List Char → Option δ) : Except ApiError δ :=
  if gctx.http_password = "" then .error .configError
  else handleResponse (http (buildUrl gctx.host (gerritEndpointNorm endpoint))) parse

/-! ### URL path encoding (`urllib.parse.quote` with `safe=''`) -/

def utf8Bytes (c : Char) : List Nat :=
  let n := c.toNat
  if n < 128 then [n]
  else if n < 2048 then [192 + n / 64, 128 + n % 64]
  else if n < 65536 then [224 + n / 4096, 128 + (n / 64) % 64, 128 + n % 64]
  else [240 + n / 262144, 128 + (n / 4096) % 64, 128 + (n / 64) % 64, 128 + n % 64]

def hexDigitChar (n : Nat) : Char := Char.ofNat (if n < 10 then 48 + n else 55 + n)

def isUrlSafeChar (c : Char) : Bool :=
  c.isAlpha || c.isDigit || c == '_' || c == '.' || c == '-' || c == '~'

def quoteChar (c : Char) : List Char :=
  if isUrlSafeChar c then [c]
  else (utf8Bytes c).flatMap (fun b => ['%', hexDigitChar (b / 16), hexDigitChar (b % 16)])

def urlQuote (s : String) : String := String.mk (s.toList.flatMap quoteChar)

/-! ### REST endpoint strings built by the service layer -/

def changeDetailEndpoint (change_id : String) : String :=
  "a/changes/" ++ change_id ++
    "/detail?o=CURRENT_REVISION&o=CURRENT_COMMIT&o=MESSAGES&o=DETAILED_LABELS&o=DETAILED_ACCOUNTS&o=ALL_REVISIONS&o=ALL_COMMITS&o=ALL_FILES&o=COMMIT_FOOTERS"

def diffChangeEndpoint (change_id : String) : String :=
  "a/changes/" ++ change_id ++ "/detail?o=ALL_REVISIONS&o=ALL_FILES"

def fileDiffEndpoint (change_id target_revision file_path : String) : String :=
  "a/changes/" ++ change_id ++ "/revisions/" ++ target_revision ++ "/files/" ++
    urlQuote file_path ++ "/diff"

def filesListEndpoint (change_id target_revision : String) : String :=
  "a/changes/" ++ change_id ++ "/revisions/" ++ target_revision ++ "/files"

/-! ### Service layer (`src/servers/gerrit_service.py`)

The service consumes `make_gerrit_rest_request` results already decoded into the
three JSON shapes it requests; `GerritNet` packages those typed oracles.  `δ` is
the opaque per-file diff payload (the backend-native blob the code never
reinterprets). -/

structure GerritNet (δ : Type) where
  change : String → Except ApiError (Option ChangeDetail)
  fileList : String → Except ApiError (List (String × FileInfo))
  diff : String → Except ApiError δ

structure FileDiffItem (δ : Type) where
  path : String
  status : String
  lines_inserted : Int
  lines_deleted : Int
  size_delta : Int
  diff : δ
deriving DecidableEq

structure ChangeResult (δ : Type) where
  change_info : ChangeDetail
  project : String
  revision : String
  patchset : RevisionInfo
  files : List (FileDiffItem δ)
deriving DecidableEq

structure DiffFileEntry (δ : Type) where
  status : String
  lines_inserted : Int
  lines_deleted : Int
  size_delta : Int
  diff : δ
deriving DecidableEq

structure DiffResult (δ : Type) where
  base_revision : String
  target_revision : String
  base_patchset : String
  target_patchset : String
  files : List (String × DiffFileEntry δ)
deriving DecidableEq

/-- Embeds the per-file loop of `fetch_gerrit_change` (lines 119-134): skip the
commit-message pseudo-path, fetch each file's diff, assemble the `FileDiff`
records in iteration order, aborting on the first failed fetch. -/
def processChangeFiles {δ : Type} (net : GerritNet δ) (change_id target_revision : String) :
    List (String × FileInfo) → Except GerritError (List (FileDiffItem δ))
  | [] => .ok []
  | (file_path, file_info) :: rest =>
    if file_path = "/COMMIT_MSG" then processChangeFiles net change_id target_revision rest
    else
      match net.diff (fileDiffEndpoint change_id target_revision file_path) with
      | .error e => .error (.api e)
      | .ok d =>
        match processChangeFiles net change_id target_revision rest with
        | .error e => .error e
        | .ok out =>
          .ok ({ path := file_path, status := file_info.status,
                 lines_inserted := file_info.lines_inserted,
                 lines_deleted := file_info.lines_deleted,
                 size_delta := file_info.size_delta, diff := d } :: out)

/-- Embeds `fetch_gerrit_change` (the identical `GerritProvider.fetch_change`
included): change-detail request, emptiness and project checks, revision
resolution, then the per-file diff loop. -/
def fetch_gerrit_change {δ : Type} (net : GerritNet δ) (change_id : String)
    (patchset_number : Option String) : Except GerritError (ChangeResult δ) :=
  match net.change (changeDetailEndpoint change_id) with
  | .error e => .error (.api e)
  | .ok none => .error (.changeNotFound change_id)
  | .ok (some change_info) =>
    if change_info.project = "" then .error .projectNotFound
    else
      match resolveRevision change_info patchset_number with
      | .error e => .error e
      | .ok target_revision =>
        match change_info.revisions.lookup target_revision with
        | none => .error .revisionNotFound
        | some revision_info =>
          match processChangeFiles net change_id target_revision revision_info.files with
          | .error e => .error e
          | .ok processed =>
            .ok { change_info := change_info, project := change_info.project,
                  revision := target_revision, patchset := revision_info,
                  files := processed }

/-- Embeds the no-`break` scan of `fetch_patchset_diff` (lines 175-179): the loop
keeps overwriting, so the last matching revision wins. -/
def findLastRevisionByNumber (pn : String) (revisions : List (String × RevisionInfo)) :
    Option String :=
  revisions.foldl (fun acc kv => if toString kv.2.number = pn then some kv.1 else acc) none

/-- Embeds the per-file loop of `fetch_patchset_diff` (lines 189-204): skip the
commit-message pseudo-path, include only files whose status differs from `SAME`,
fetch each included file's base-relative diff. -/
def processDiffFiles {δ : Type} (net : GerritNet δ)
    (change_id target_revision base_revision : String) :
    List (String × FileInfo) → Except GerritError (List (String × DiffFileEntry δ))
  | [] => .ok []
  | (fpath, file_info) :: rest =>
    if fpath = "/COMMIT_MSG" then processDiffFiles net change_id target_revision base_revision rest
    else if file_info.status ≠ "SAME" then
      match net.diff (fileDiffEndpoint change_id target_revision fpath ++
          (if base_revision = "" then "" else "?base=" ++ base_revision)) with
      | .error e => .error (.api e)
      | .ok d =>
        match processDiffFiles net change_id target_revision base_revision rest with
        | .error e => .error e
        | .ok out =>
          .ok ((fpath, { status := file_info.status,
                         lines_inserted := file_info.lines_inserted,
                         lines_deleted := file_info.lines_deleted,
                         size_delta := file_info.size_delta, diff := d }) :: out)
    else processDiffFiles net change_id target_revision base_revision rest

/-- Embeds lines 184-212 of `fetch_patchset_diff`, after both revisions resolved:
base-relative file-list request, filtered per-file diff loop, result record. -/
def fetchPatchsetDiffFiles {δ : Type} (net : GerritNet δ)
    (change_id base_patchset target_patchset base_revision target_revision : String) :
    Except GerritError (DiffResult δ) :=
  match net.fileList (filesListEndpoint change_id target_revision ++
      (if base_revision = "" then "" else "?base=" ++ base_revision)) with
  | .error e => .error (.api e)
  | .ok files_diff =>
    match processDiffFiles net change_id target_revision base_revision files_diff with
    | .error e => .error e
    | .ok changed =>
      .ok { base_revision := base_revision, target_revision := target_revision,
            base_patchset := base_patchset, target_patchset := target_patchset,
            files := changed }

/-- Embeds lines 172-183 of `fetch_patchset_diff`: the no-`break` scan for both
patchset numbers and the combined truthiness check (`None` or `""` fail both). -/
def fetchPatchsetDiffResolved {δ : Type} (net : GerritNet δ)
    (change_id base_patchset target_patchset : String) (change_info : ChangeDetail) :
    Except GerritError (DiffResult δ) :=
  if !(optTruthy (findLastRevisionByNumber base_patchset change_info.revisions)) ||
      !(optTruthy (findLastRevisionByNumber target_patchset change_info.revisions)) then
    .error (.patchsetsNotFound (availablePatchsets change_info.revisions))
  else
    fetchPatchsetDiffFiles net change_id base_patchset target_patchset
      ((findLastRevisionByNumber base_patchset change_info.revisions).getD "")
      ((findLastRevisionByNumber target_patchset change_info.revisions).getD "")

/-- Embeds `fetch_patchset_diff` (the identical
`GerritProvider.fetch_patchset_diff` included): restricted change-detail request,
last-match resolution of both patchset numbers, base-relative file list, then the
filtered per-file diff loop.  `file_path` is accepted (it is in the Python
signature) but, as in the source, only ever logged. -/
def fetch_patchset_diff {δ : Type} (net : GerritNet δ) (change_id : String)
    (base_patchset target_patchset : String) (file_path : Option String) :
    Except GerritError (DiffResult δ) :=
  match net.change (diffChangeEndpoint change_id) with
  | .error e => .error (.api e)
  | .ok none => .error (.changeNotFound change_id)
  | .ok (some change_info) =>
    fetchPatchsetDiffResolved net change_id base_patchset target_patchset change_info

/-! ### Error rendering (`str(e)` of each raise site)

`get_repository_path_from_change` wraps any caught exception's `str(e)` into its
own `ValueError` message, so the embedding needs the message of every error.  For
the two wrapper messages of `gerrit_api.py` that interpolate a nested exception's
text (`requests` transport errors and `json.JSONDecodeError`), the embedded
message carries the modelled content (the HTTP status) or just the fixed part. -/

def ApiError.message : ApiError → String
  | .configError => "HTTP password not set. Please set GERRIT_HTTP_PASSWORD in your environment."
  | .authError m => m
  | .transportError status => "Failed to make Gerrit REST API request: " ++ toString status
  | .parseError => "Failed to parse Gerrit response as JSON: "

def GerritError.message : GerritError → String
  | .api e => e.message
  | .changeNotFound change_id => "Change " ++ change_id ++ " not found"
  | .projectNotFound => "Project information not found in change"
  | .patchsetNotFound p avail =>
    "Patchset " ++ p ++ " not found. Available patchsets: " ++ String.intercalate ", " avail
  | .patchsetsNotFound avail =>
    "Patchset(s) not found. Available patchsets: " ++ String.intercalate ", " avail
  | .revisionNotFound => "Revision information not found"
  | .indexOutOfRange => "list index out of range"
  | .urlDerivation m => m

/-! ### URL parsing (`urllib.parse.urlparse`, restricted to what the code reads)

`get_repository_path_from_change` reads `parsed.scheme`, `parsed.hostname` and
`parsed.path`.  The embedding reproduces `urlparse` for URLs of the shape
`scheme://netloc/path`: the scheme is what stands before the first `://`, the
netloc runs to the next `/`, the hostname is the netloc without userinfo and
port, lowercased (ASCII suffices for host names). -/

def splitChar (sep : Char) : List Char → List (List Char)
  | [] => [[]]
  | c :: rest =>
    let r := splitChar sep rest
    if c = sep then [] :: r else (c :: r.headD []) :: r.tail

def charsLower (l : List Char) : List Char := l.map Char.toLower

def splitSchemeAux : List Char → Option (List Char × List Char)
  | ':' :: '/' :: '/' :: rest => some ([], rest)
  | c :: rest => (splitSchemeAux rest).map (fun p => (c :: p.1, p.2))
  | [] => none

def hostnameOf (netloc : List Char) : List Char :=
  charsLower (((splitChar '@' netloc).getLastD []).takeWhile (fun c => c != ':'))

/-- Returns `(scheme, hostname, path)` as read off the parsed URL. -/
def parseUrl (u : List Char) : List Char × List Char × List Char :=
  match splitSchemeAux u with
  | some (scheme, rest) =>
    (charsLower scheme, hostnameOf (rest.takeWhile (fun c => c != '/')),
      rest.dropWhile (fun c => c != '/'))
  | none => ([], [], u)

/-- Embeds `path_parts.strip('/')`. -/
def stripSlashes (l : List Char) : List Char :=
  ((l.dropWhile (fun c => c == '/')).reverse.dropWhile (fun c => c == '/')).reverse

/-- Embeds `path_parts.index('+') if '+' in path_parts else -1`. -/
def plusIdxInt (parts : List String) : Int :=
  if parts.contains "+" then (parts.indexOf "+" : Int) else -1

/-- Embeds the clone-URL formatting: `ssh://{user@}{host}:29418/{project}.git`
for `clone_url_type == "ssh"`, else `{protocol}://{user@}{host}/a/{project}.git`. -/
def formatCloneUrl (clone_url_type protocol user host project : String) : String :=
  let userAt := if user = "" then "" else user ++ "@"
  if clone_url_type = "ssh" then "ssh://" ++ userAt ++ host ++ ":29418/" ++ project ++ ".git"
  else protocol ++ "://" ++ userAt ++ host ++ "/a/" ++ project ++ ".git"

/-- Embeds the branch on `plus_index` of `get_repository_path_from_change`:
either read the project off the path segments between the leading segment and
`+` (the indexing `path_parts[plus_index + 1]` can raise `IndexError`), or fall
back to a full change lookup of the final path segment to obtain the project. -/
def deriveCloneFromParts {δ : Type} (net : GerritNet δ)
    (user clone_url_type protocol host : String) (path_parts : List String) :
    Except GerritError String :=
  if plusIdxInt path_parts > 1 then
    match path_parts[(plusIdxInt path_parts).toNat + 1]? with
    | none => .error .indexOutOfRange
    | some _ =>
      .ok (formatCloneUrl clone_url_type protocol user host
        (String.intercalate "/" ((path_parts.drop 1).take ((plusIdxInt path_parts).toNat - 1))))
  else
    match fetch_gerrit_change net (path_parts.getLastD "") none with
    | .error e => .error e
    | .ok cr => .ok (formatCloneUrl clone_url_type protocol user host cr.project)

/-- Embeds the surrounding `try/except` of `get_repository_path_from_change`:
any failure is re-raised as
`ValueError("Failed to extract repository path: " + str(e))`. -/
def wrapUrlError : Except GerritError String → Except GerritError String
  | .ok r => .ok r
  | .error e => .error (.urlDerivation ("Failed to extract repository path: " ++ e.message))

/-- Embeds `get_repository_path_from_change`.  `user` stands for
`getattr(ctx, 'user', None) or os.getenv("GERRIT_USER", "")` (the resolved acting
user); the returned string is the `full_clone_url` field of the result dict. -/
def get_repository_path_from_change {δ : Type} (net : GerritNet δ) (user : String)
    (change_url : String) (clone_url_type : String) : Except GerritError String :=
  wrapUrlError (deriveCloneFromParts net user clone_url_type
    (String.mk (parseUrl change_url.toList).1)
    (String.mk (parseUrl change_url.toList).2.1)
    ((splitChar '/' (stripSlashes (parseUrl change_url.toList).2.2)).map String.mk))

/-! ### Concrete fixtures used by witnesses and counterexamples -/

def fiMod : FileInfo := ⟨"MODIFIED", 1, 2, 3⟩

def fiSame : FileInfo := ⟨"SAME", 0, 0, 0⟩

def riX1 : RevisionInfo := ⟨1, [("/COMMIT_MSG", fiMod), ("a.txt", fiMod)]⟩

def riX2 : RevisionInfo := ⟨2, [("b.txt", fiMod)]⟩

def cdX : ChangeDetail := ⟨"proj0", "r2", [("r1", riX1), ("r2", riX2)]⟩

def fdX : List (String × FileInfo) :=
  [("/COMMIT_MSG", fiMod), ("c.txt", fiMod), ("s.txt", fiSame)]

def netX : GerritNet Unit :=
  ⟨fun _ => .ok (some cdX), fun _ => .ok fdX, fun _ => .ok ()⟩

def cdNoRevs : ChangeDetail := ⟨"p", "r1", []⟩

def cdDupNum : ChangeDetail := ⟨"p", "ra", [("ra", ⟨1, []⟩), ("rb", ⟨1, []⟩)]⟩

def cdEmptyKey : ChangeDetail := ⟨"p", "r0", [("", ⟨1, []⟩), ("r0", ⟨2, []⟩)]⟩

def cdSort : ChangeDetail := ⟨"p", "rx", [("r1", ⟨2, []⟩), ("r2", ⟨10, []⟩), ("r3", ⟨1, []⟩)]⟩

/-! ### Lemmas about the revision resolver -/

theorem findRevisionByNumber_of_mem {pn rev : String} {info : RevisionInfo} :
    ∀ {revs : List (String × RevisionInfo)},
    (revs.map (fun kv => toString kv.2.number)).Nodup →
    (rev, info) ∈ revs → toString info.number = pn →
    findRevisionByNumber pn revs = some rev := by
  intro revs
  induction revs with
  | nil => intro _ hmem _; simp at hmem
  | cons hd tl ih =>
    intro hnd hmem hnum
    obtain ⟨r0, i0⟩ := hd
    simp only [List.map_cons, List.nodup_cons] at hnd
    rcases List.mem_cons.mp hmem with heq | htl
    · rw [Prod.mk.injEq] at heq
      obtain ⟨h1, h2⟩ := heq
      subst h1; subst h2
      simp only [findRevisionByNumber, if_pos hnum]
    · have hpn : pn ∈ tl.map (fun kv => toString kv.2.number) :=
        List.mem_map.mpr ⟨(rev, info), htl, hnum⟩
      have hne : toString i0.number ≠ pn := by
        intro h
        exact hnd.1 (by rwa [h])
      simp only [findRevisionByNumber, if_neg hne]
      exact ih hnd.2 htl hnum

theorem findRevisionByNumber_eq_none {pn : String} :
    ∀ {revs : List (String × RevisionInfo)},
    (∀ kv ∈ revs, toString (kv.2 : RevisionInfo).number ≠ pn) →
    findRevisionByNumber pn revs = none := by
  intro revs
  induction revs with
  | nil => intro _; rfl
  | cons hd tl ih =>
    intro h
    obtain ⟨r0, i0⟩ := hd
    have h0 : toString i0.number ≠ pn := h (r0, i0) (List.mem_cons_self _ _)
    simp only [findRevisionByNumber, if_neg h0]
    exact ih (fun kv hkv => h kv (List.mem_cons_of_mem _ hkv))

theorem any_key_of_mem {rev : String} {info : RevisionInfo}
    {revs : List (String × RevisionInfo)} (hmem : (rev, info) ∈ revs) :
    revs.any (fun kv => kv.1 == rev) = true :=
  List.any_eq_true.mpr ⟨(rev, info), hmem, by simp⟩

theorem resolveRevision_found {D : ChangeDetail} {pn rev : String} {info : RevisionInfo}
    (hpn : pn ≠ "")
    (hnd : (D.revisions.map (fun kv => toString kv.2.number)).Nodup)
    (hmem : (rev, info) ∈ D.revisions) (hnum : toString info.number = pn)
    (hrev : rev ≠ "") :
    resolveRevision D (some pn) = .ok rev := by
  have htr : optTruthy (some pn) = true := by simp [optTruthy, hpn]
  have h1 : (rev == "") = false := by simp [hrev]
  have h2 : (D.revisions.any fun kv => kv.1 == rev) = true := any_key_of_mem hmem
  simp [resolveRevision, htr, Option.getD_some,
    findRevisionByNumber_of_mem hnd hmem hnum, if_neg hrev, h1, h2]

theorem resolveRevision_none_current {D : ChangeDetail}
    (hcur : D.current_revision ≠ "")
    (hkey : D.revisions.any (fun kv => kv.1 == D.current_revision) = true) :
    resolveRevision D none = .ok D.current_revision := by
  have h1 : (D.current_revision == "") = false := by simp [hcur]
  simp [resolveRevision, optTruthy, h1, hkey]

theorem resolveRevision_not_found {D : ChangeDetail} {pn : String}
    (hpn : pn ≠ "")
    (hno : ∀ kv ∈ D.revisions, toString (kv.2 : RevisionInfo).number ≠ pn) :
    resolveRevision D (some pn) =
      .error (.patchsetNotFound pn (availablePatchsets D.revisions)) := by
  have htr : optTruthy (some pn) = true := by simp [optTruthy, hpn]
  simp [resolveRevision, htr, findRevisionByNumber_eq_none hno]

/-! ### Claim C1 -/

/-- C1 counterexample.  The claim as stated fails on the code in three ways:
with the patchset number absent the code returns `current_revision` only after
the defensive check of line 115 — on a `ChangeDetail` whose `current_revision`
is not a key of `revisions` it raises `Revision information not found` instead;
when two revisions stringify to the same sequence number, the scan returns the
first, not "exactly that entry" for the second; and a matching entry whose
revision-id is the empty string is reported as patchset-not-found. -/
theorem c1_counterexample :
    (resolveRevision cdNoRevs none = .error .revisionNotFound ∧
      resolveRevision cdNoRevs none ≠ .ok cdNoRevs.current_revision) ∧
    (("rb", (⟨1, []⟩ : RevisionInfo)) ∈ cdDupNum.revisions ∧
      toString (1 : Int) = "1" ∧
      resolveRevision cdDupNum (some "1") = .ok "ra" ∧
      resolveRevision cdDupNum (some "1") ≠ .ok "rb") ∧
    (("", (⟨1, []⟩ : RevisionInfo)) ∈ cdEmptyKey.revisions ∧
      resolveRevision cdEmptyKey (some "1") =
        .error (.patchsetNotFound "1" ["1", "2"])) := by
  decide

/-- C1, amended.  If the revisions' stringified sequence numbers are pairwise
distinct and the matching entry's revision-id is nonempty, resolving with that
number returns exactly that entry's revision-id; resolving with the number
absent returns `current_revision` provided it is nonempty and a key of the
revisions map. -/
theorem c1_resolveRevision_correct :
    (∀ (D : ChangeDetail) (pn rev : String) (info : RevisionInfo),
      pn ≠ "" →
      (D.revisions.map (fun kv => toString kv.2.number)).Nodup →
      (rev, info) ∈ D.revisions → toString info.number = pn → rev ≠ "" →
      resolveRevision D (some pn) = .ok rev) ∧
    (∀ D : ChangeDetail, D.current_revision ≠ "" →
      D.revisions.any (fun kv => kv.1 == D.current_revision) = true →
      resolveRevision D none = .ok D.current_revision) :=
  ⟨fun _ _ _ _ hpn hnd hmem hnum hrev => resolveRevision_found hpn hnd hmem hnum hrev,
   fun _ hcur hkey => resolveRevision_none_current hcur hkey⟩

/-- C1 witness: both conjuncts applied on the concrete change `cdX`. -/
theorem c1_witness :
    (("1" : String) ≠ "" ∧
      (cdX.revisions.map (fun kv => toString kv.2.number)).Nodup ∧
      ("r1", riX1) ∈ cdX.revisions ∧ toString riX1.number = "1" ∧ ("r1" : String) ≠ "" ∧
      resolveRevision cdX (some "1") = .ok "r1") ∧
    (cdX.current_revision ≠ "" ∧
      cdX.revisions.any (fun kv => kv.1 == cdX.current_revision) = true ∧
      resolveRevision cdX none = .ok cdX.current_revision) :=
  ⟨⟨by decide, by decide, by decide, by decide, by decide,
    c1_resolveRevision_correct.1 cdX "1" "r1" riX1 (by decide) (by decide) (by decide)
      (by decide) (by decide)⟩,
   ⟨by decide, by decide,
    c1_resolveRevision_correct.2 cdX (by decide) (by decide)⟩⟩

/-! ### Claim C2 -/

/-- C2 counterexample.  The code builds the available-patchsets payload without
deduplication: on a change whose two revisions both carry sequence number 1,
requesting patchset 2 raises `PatchsetNotFoundError` with payload
`["1", "1"]`, which is not the duplicate-free sorted set the claim demands. -/
theorem c2_counterexample :
    resolveRevision cdDupNum (some "2") = .error (.patchsetNotFound "2" ["1", "1"]) ∧
    ¬ (["1", "1"] : List String).Nodup := by
  decide

/-- C2, amended.  When the requested (nonempty) patchset number matches no
revision, resolution fails with `PatchsetNotFoundError` whose payload is the
lexicographically sorted list of all stringified sequence numbers, duplicates
preserved: it is a permutation of the full multiset of sequence numbers, sorted
in code-point (numeric-string) order, and duplicate-free whenever the sequence
numbers are pairwise distinct. -/
theorem c2_availablePatchsets_correct :
    ∀ (D : ChangeDetail) (pn : String),
      pn ≠ "" →
      (∀ kv ∈ D.revisions, toString (kv.2 : RevisionInfo).number ≠ pn) →
      resolveRevision D (some pn) =
        .error (.patchsetNotFound pn (availablePatchsets D.revisions)) ∧
      (availablePatchsets D.revisions).Perm
        (D.revisions.map (fun kv => toString kv.2.number)) ∧
      List.Sorted (fun a b => pyStrLe a b = true) (availablePatchsets D.revisions) ∧
      ((D.revisions.map (fun kv => toString kv.2.number)).Nodup →
        (availablePatchsets D.revisions).Nodup) :=
  fun _ _ hpn hno =>
    ⟨resolveRevision_not_found hpn hno, pySorted_perm _, pySorted_sorted _,
     fun h => pySorted_nodup h⟩

/-- C2 witness: on `cdSort` (stored numbers 2, 10, 1) the payload for the
unmatched request "9" is the lexicographically sorted `["1", "10", "2"]`. -/
theorem c2_witness :
    (("9" : String) ≠ "") ∧
    (∀ kv ∈ cdSort.revisions, toString (kv.2 : RevisionInfo).number ≠ "9") ∧
    resolveRevision cdSort (some "9") = .error (.patchsetNotFound "9" ["1", "10", "2"]) :=
  ⟨by decide, by decide,
   (c2_availablePatchsets_correct cdSort "9" (by decide) (by decide)).1⟩

/-! ### Lemmas about the per-file loops -/

theorem processChangeFiles_ok_no_commit_msg {δ : Type} {net : GerritNet δ}
    {change_id target_revision : String} :
    ∀ {files : List (String × FileInfo)} {out : List (FileDiffItem δ)},
    processChangeFiles net change_id target_revision files = .ok out →
    "/COMMIT_MSG" ∉ out.map FileDiffItem.path := by
  intro files
  induction files with
  | nil =>
    intro out h
    simp only [processChangeFiles] at h
    injection h with h'
    subst h'
    simp
  | cons hd tl ih =>
    intro out h
    obtain ⟨fpath, finfo⟩ := hd
    by_cases hc : fpath = "/COMMIT_MSG"
    · simp only [processChangeFiles, if_pos hc] at h
      exact ih h
    · simp only [processChangeFiles, if_neg hc] at h
      cases hnd : net.diff (fileDiffEndpoint change_id target_revision fpath) with
      | error e => rw [hnd] at h; cases h
      | ok d =>
        rw [hnd] at h
        cases hrec : processChangeFiles net change_id target_revision tl with
        | error e => rw [hrec] at h; cases h
        | ok out' =>
          rw [hrec] at h
          injection h with h'
          subst h'
          simp only [List.map_cons, List.mem_cons]
          intro hmem
          rcases hmem with heq | htl
          · exact hc heq.symm
          · exact ih hrec htl

theorem processDiffFiles_ok_no_commit_msg {δ : Type} {net : GerritNet δ}
    {change_id target_revision base_revision : String} :
    ∀ {fd : List (String × FileInfo)} {out : List (String × DiffFileEntry δ)},
    processDiffFiles net change_id target_revision base_revision fd = .ok out →
    "/COMMIT_MSG" ∉ out.map Prod.fst := by
  intro fd
  induction fd with
  | nil =>
    intro out h
    simp only [processDiffFiles] at h
    injection h with h'
    subst h'
    simp
  | cons hd tl ih =>
    intro out h
    obtain ⟨fpath, finfo⟩ := hd
    by_cases hc : fpath = "/COMMIT_MSG"
    · simp only [processDiffFiles, if_pos hc] at h
      exact ih h
    · simp only [processDiffFiles, if_neg hc] at h
      by_cases hs : finfo.status ≠ "SAME"
      · rw [if_pos hs] at h
        cases hnd : net.diff (fileDiffEndpoint change_id target_revision fpath ++
            (if base_revision = "" then "" else "?base=" ++ base_revision)) with
        | error e => rw [hnd] at h; cases h
        | ok d =>
          rw [hnd] at h
          cases hrec : processDiffFiles net change_id target_revision base_revision tl with
          | error e => rw [hrec] at h; cases h
          | ok out' =>
            rw [hrec] at h
            injection h with h'
            subst h'
            simp only [List.map_cons, List.mem_cons]
            intro hmem
            rcases hmem with heq | htl
            · exact hc heq.symm
            · exact ih hrec htl
      · rw [if_neg hs] at h
        exact ih h

theorem mem_keys_processDiffFiles {δ : Type} {net : GerritNet δ}
    {change_id target_revision base_revision : String} :
    ∀ {fd : List (String × FileInfo)} {out : List (String × DiffFileEntry δ)} {k : String},
    processDiffFiles net change_id target_revision base_revision fd = .ok out →
    k ∈ out.map Prod.fst →
    ∃ fi, (k, fi) ∈ fd ∧ fi.status ≠ "SAME" ∧ k ≠ "/COMMIT_MSG" := by
  intro fd
  induction fd with
  | nil =>
    intro out k h hk
    simp only [processDiffFiles] at h
    injection h with h'
    subst h'
    simp at hk
  | cons hd tl ih =>
    intro out k h hk
    obtain ⟨fpath, finfo⟩ := hd
    by_cases hc : fpath = "/COMMIT_MSG"
    · simp only [processDiffFiles, if_pos hc] at h
      obtain ⟨fi, hfi, hs, hkc⟩ := ih h hk
      exact ⟨fi, List.mem_cons_of_mem _ hfi, hs, hkc⟩
    · simp only [processDiffFiles, if_neg hc] at h
      by_cases hs : finfo.status ≠ "SAME"
      · rw [if_pos hs] at h
        cases hnd : net.diff (fileDiffEndpoint change_id target_revision fpath ++
            (if base_revision = "" then "" else "?base=" ++ base_revision)) with
        | error e => rw [hnd] at h; cases h
        | ok d =>
          rw [hnd] at h
          cases hrec : processDiffFiles net change_id target_revision base_revision tl with
          | error e => rw [hrec] at h; cases h
          | ok out' =>
            rw [hrec] at h
            injection h with h'
            subst h'
            simp only [List.map_cons, List.mem_cons] at hk
            rcases hk with heq | htl
            · subst heq
              exact ⟨finfo, List.mem_cons_self _ _, hs, hc⟩
            · obtain ⟨fi, hfi, hs', hkc⟩ := ih hrec htl
              exact ⟨fi, List.mem_cons_of_mem _ hfi, hs', hkc⟩
      · rw [if_neg hs] at h
        obtain ⟨fi, hfi, hs', hkc⟩ := ih h hk
        exact ⟨fi, List.mem_cons_of_mem _ hfi, hs', hkc⟩

theorem same_not_mem_keys_processDiffFiles {δ : Type} {net : GerritNet δ}
    {change_id target_revision base_revision : String} :
    ∀ {fd : List (String × FileInfo)} {out : List (String × DiffFileEntry δ)}
      {k : String} {fi : FileInfo},
    (fd.map Prod.fst).Nodup →
    processDiffFiles net change_id target_revision base_revision fd = .ok out →
    (k, fi) ∈ fd → fi.status = "SAME" →
    k ∉ out.map Prod.fst := by
  intro fd
  induction fd with
  | nil =>
    intro out k fi _ _ hmem _
    simp at hmem
  | cons hd tl ih =>
    intro out k fi hnd h hmem hsame
    obtain ⟨fpath, finfo⟩ := hd
    simp only [List.map_cons, List.nodup_cons] at hnd
    have hsub : ∀ {out' : List (String × DiffFileEntry δ)},
        processDiffFiles net change_id target_revision base_revision tl = .ok out' →
        fpath ∉ out'.map Prod.fst := by
      intro out' hrec hmem'
      obtain ⟨fi', hfi', _, _⟩ := mem_keys_processDiffFiles hrec hmem'
      exact hnd.1 (List.mem_map.mpr ⟨(fpath, fi'), hfi', rfl⟩)
    rcases List.mem_cons.mp hmem with heq | htl
    · rw [Prod.mk.injEq] at heq
      obtain ⟨hk, hf⟩ := heq
      subst hk; subst hf
      by_cases hc : k = "/COMMIT_MSG"
      · simp only [processDiffFiles, if_pos hc] at h
        exact hsub h
      · simp only [processDiffFiles, if_neg hc] at h
        rw [if_neg (by simpa using hsame)] at h
        exact hsub h
    · have hk0 : k ≠ fpath := by
        intro he
        subst he
        exact hnd.1 (List.mem_map.mpr ⟨(k, fi), htl, rfl⟩)
      by_cases hc : fpath = "/COMMIT_MSG"
      · simp only [processDiffFiles, if_pos hc] at h
        exact ih hnd.2 h htl hsame
      · simp only [processDiffFiles, if_neg hc] at h
        by_cases hs : finfo.status ≠ "SAME"
        · rw [if_pos hs] at h
          cases hnd' : net.diff (fileDiffEndpoint change_id target_revision fpath ++
              (if base_revision = "" then "" else "?base=" ++ base_revision)) with
          | error e => rw [hnd'] at h; cases h
          | ok d =>
            rw [hnd'] at h
            cases hrec : processDiffFiles net change_id target_revision base_revision tl with
            | error e => rw [hrec] at h; cases h
            | ok out' =>
              rw [hrec] at h
              injection h with h'
              subst h'
              simp only [List.map_cons, List.mem_cons]
              intro hor
              rcases hor with he | htl'
              · exact hk0 he
              · exact ih hnd.2 hrec htl hsame htl'
        · rw [if_neg hs] at h
          exact ih hnd.2 h htl hsame

/-! ### Success-shape lemmas for the two aggregation operations -/

theorem fetch_gerrit_change_ok_shape {δ : Type} {net : GerritNet δ} {change_id : String}
    {pn : Option String} {r : ChangeResult δ}
    (h : fetch_gerrit_change net change_id pn = .ok r) :
    ∃ target_revision revision_info,
      processChangeFiles net change_id target_revision
        (RevisionInfo.files revision_info) = .ok r.files := by
  cases h1 : net.change (changeDetailEndpoint change_id) with
  | error e => simp [fetch_gerrit_change, h1] at h
  | ok oc =>
    cases oc with
    | none => simp [fetch_gerrit_change, h1] at h
    | some ci =>
      simp only [fetch_gerrit_change, h1] at h
      by_cases hp : ci.project = ""
      · simp [if_pos hp] at h
      · rw [if_neg hp] at h
        cases h2 : resolveRevision ci pn with
        | error e => simp [h2] at h
        | ok tr =>
          simp only [h2] at h
          cases h3 : List.lookup tr ci.revisions with
          | none => simp [h3] at h
          | some ri =>
            simp only [h3] at h
            cases h4 : processChangeFiles net change_id tr ri.files with
            | error e => simp [h4] at h
            | ok out =>
              simp only [h4] at h
              injection h with h'
              subst h'
              exact ⟨tr, ri, by simpa using h4⟩

theorem fetch_patchset_diff_ok_shape {δ : Type} {net : GerritNet δ}
    {change_id base_patchset target_patchset : String} {fp : Option String}
    {r : DiffResult δ}
    (h : fetch_patchset_diff net change_id base_patchset target_patchset fp = .ok r) :
    ∃ target_revision base_revision fd,
      net.fileList (filesListEndpoint change_id target_revision ++
        (if base_revision = "" then "" else "?base=" ++ base_revision)) = .ok fd ∧
      processDiffFiles net change_id target_revision base_revision fd = .ok r.files := by
  cases h1 : net.change (diffChangeEndpoint change_id) with
  | error e => simp [fetch_patchset_diff, h1] at h
  | ok oc =>
    cases oc with
    | none => simp [fetch_patchset_diff, h1] at h
    | some ci =>
      simp only [fetch_patchset_diff, h1] at h
      unfold fetchPatchsetDiffResolved at h
      by_cases hb : (!(optTruthy (findLastRevisionByNumber base_patchset ci.revisions)) ||
          !(optTruthy (findLastRevisionByNumber target_patchset ci.revisions))) = true
      · rw [if_pos hb] at h; cases h
      · rw [if_neg hb] at h
        unfold fetchPatchsetDiffFiles at h
        cases h2 : net.fileList (filesListEndpoint change_id
            ((findLastRevisionByNumber target_patchset ci.revisions).getD "") ++
            (if ((findLastRevisionByNumber base_patchset ci.revisions).getD "") = "" then ""
             else "?base=" ++ ((findLastRevisionByNumber base_patchset ci.revisions).getD ""))) with
        | error e => simp [h2] at h
        | ok fd =>
          simp only [h2] at h
          cases h3 : processDiffFiles net change_id
              ((findLastRevisionByNumber target_patchset ci.revisions).getD "")
              ((findLastRevisionByNumber base_patchset ci.revisions).getD "") fd with
          | error e => simp [h3] at h
          | ok changed =>
            simp only [h3] at h
            injection h with h'
            subst h'
            exact ⟨_, _, fd, h2, by simpa using h3⟩

/-! ### Claim C3 -/

def resX1 : ChangeResult Unit :=
  ⟨cdX, "proj0", "r1", riX1, [⟨"a.txt", "MODIFIED", 1, 2, 3, ()⟩]⟩

def resD : DiffResult Unit :=
  ⟨"r1", "r2", "1", "2", [("c.txt", ⟨"MODIFIED", 1, 2, 3, ()⟩)]⟩

/-- C3: the commit-message pseudo-path `/COMMIT_MSG` never appears among the
paths of `fetch_gerrit_change`'s output file sequence, nor among the keys of
`fetch_patchset_diff`'s output file map, for any input (in particular for inputs
containing it). -/
theorem c3_commit_msg_excluded :
    (∀ (δ : Type) (net : GerritNet δ) (change_id : String) (pn : Option String)
      (r : ChangeResult δ),
      fetch_gerrit_change net change_id pn = .ok r →
      "/COMMIT_MSG" ∉ r.files.map FileDiffItem.path) ∧
    (∀ (δ : Type) (net : GerritNet δ) (change_id bp tp : String) (fp : Option String)
      (r : DiffResult δ),
      fetch_patchset_diff net change_id bp tp fp = .ok r →
      "/COMMIT_MSG" ∉ r.files.map Prod.fst) := by
  constructor
  · intro δ net cid pn r h
    obtain ⟨tr, ri, hp⟩ := fetch_gerrit_change_ok_shape h
    exact processChangeFiles_ok_no_commit_msg hp
  · intro δ net cid bp tp fp r h
    obtain ⟨tr, br, fd, _, hp⟩ := fetch_patchset_diff_ok_shape h
    exact processDiffFiles_ok_no_commit_msg hp

/-- C3 witness: on `netX`, whose revision file map and file-status map both
contain `/COMMIT_MSG`, both operations succeed and neither output mentions it. -/
theorem c3_witness :
    (fetch_gerrit_change netX "500" (some "1") = .ok resX1 ∧
      "/COMMIT_MSG" ∉ resX1.files.map FileDiffItem.path) ∧
    (fetch_patchset_diff netX "500" "1" "2" none = .ok resD ∧
      "/COMMIT_MSG" ∉ resD.files.map Prod.fst) :=
  ⟨⟨by decide, c3_commit_msg_excluded.1 Unit netX "500" (some "1") resX1 (by decide)⟩,
   ⟨by decide, c3_commit_msg_excluded.2 Unit netX "500" "1" "2" none resD (by decide)⟩⟩

/-! ### Claim C4 -/

/-- C4: with the upstream base-relative file-status map fixed to `fd` (a map, so
its keys are distinct), every key of `fetch_patchset_diff`'s output map is a key
of `fd` whose status is not `SAME`, and every entry of `fd` with status `SAME`
is excluded from the output map. -/
theorem c4_patchset_diff_same_filter :
    ∀ (δ : Type) (net : GerritNet δ) (fd : List (String × FileInfo))
      (change_id bp tp : String) (fp : Option String) (r : DiffResult δ),
      net.fileList = (fun _ => .ok fd) →
      (fd.map Prod.fst).Nodup →
      fetch_patchset_diff net change_id bp tp fp = .ok r →
      (∀ k ∈ r.files.map Prod.fst, ∃ fi, (k, fi) ∈ fd ∧ fi.status ≠ "SAME") ∧
      (∀ (k : String) (fi : FileInfo), (k, fi) ∈ fd → fi.status = "SAME" →
        k ∉ r.files.map Prod.fst) := by
  intro δ net fd cid bp tp fp r hO hnd h
  obtain ⟨tr, br, fd2, hfl, hp⟩ := fetch_patchset_diff_ok_shape h
  rw [hO] at hfl
  injection hfl with hfd
  subst hfd
  constructor
  · intro k hk
    obtain ⟨fi, hfi, hs, _⟩ := mem_keys_processDiffFiles hp hk
    exact ⟨fi, hfi, hs⟩
  · intro k fi hfi hs
    exact same_not_mem_keys_processDiffFiles hnd hp hfi hs

/-- C4 witness: on `netX` (upstream map `fdX` with a `SAME` entry `s.txt`), the
output keys are exactly the non-`SAME` real files and `s.txt` is excluded. -/
theorem c4_witness :
    netX.fileList = (fun _ => .ok fdX) ∧
    (fdX.map Prod.fst).Nodup ∧
    fetch_patchset_diff netX "500" "1" "2" none = .ok resD ∧
    ((∀ k ∈ resD.files.map Prod.fst, ∃ fi, (k, fi) ∈ fdX ∧ fi.status ≠ "SAME") ∧
     (∀ (k : String) (fi : FileInfo), (k, fi) ∈ fdX → fi.status = "SAME" →
        k ∉ resD.files.map Prod.fst)) :=
  ⟨rfl, by decide, by decide,
   c4_patchset_diff_same_filter Unit netX fdX "500" "1" "2" none resD rfl
     (by decide) (by decide)⟩

/-! ### Claim C5 -/

/-- Substring test used to probe what an error message carries. -/
def containsSeq : List Char → List Char → Bool
  | [], needle => needle.isEmpty
  | c :: t, needle => needle.isPrefixOf (c :: t) || containsSeq t needle

/-- C5 counterexample.  On a 401 response the code raises a bare `Exception`
with a fixed message; the response body (`SECRETBODY` here) is written to the
log only — it does not occur anywhere in the raised error, so the error does
not carry the response body as the claim states. -/
theorem c5_counterexample :
    make_gerrit_rest_request ⟨"https://h", "u", "pw"⟩ "x"
      (fun _ => ⟨401, "SECRETBODY".toList⟩) (fun l => some l) =
      .error (.authError authFailedMsg) ∧
    containsSeq authFailedMsg.toList "SECRETBODY".toList = false := by
  decide

/-- C5, amended.  Whenever the credential is set and the HTTP response carries
status 401, the request primitive fails with the authentication error — a fixed
message, produced regardless of the response body and distinct (by constructor)
from the transport-failure error; the response body is logged, not carried. -/
theorem c5_auth_error_on_401 :
    ∀ (δ : Type) (gctx : GerritContext) (endpoint : String)
      (http : String → HttpResponse) (parse : List Char → Option δ),
      gctx.http_password ≠ "" →
      (http (buildUrl gctx.host (gerritEndpointNorm endpoint))).status = 401 →
      make_gerrit_rest_request gctx endpoint http parse =
        .error (.authError authFailedMsg) ∧
      (∀ status : Nat, (ApiError.authError authFailedMsg) ≠ .transportError status) := by
  intro δ gctx ep http parse hpw hst
  refine ⟨?_, fun status h => ApiError.noConfusion h⟩
  unfold make_gerrit_rest_request
  rw [if_neg hpw]
  unfold handleResponse
  rw [if_pos hst]

/-- C5 witness: the amended theorem applied at a concrete 401 environment. -/
theorem c5_witness :
    (("pw" : String) ≠ "") ∧
    ((fun (_ : String) => HttpResponse.mk 401 ['x'])
      (buildUrl "https://h" (gerritEndpointNorm "a/y"))).status = 401 ∧
    (make_gerrit_rest_request ⟨"https://h", "u", "pw"⟩ "a/y"
        (fun _ => ⟨401, ['x']⟩) (fun l => some l) = .error (.authError authFailedMsg) ∧
      (∀ status : Nat, (ApiError.authError authFailedMsg) ≠ .transportError status)) :=
  ⟨by decide, by decide,
   c5_auth_error_on_401 (List Char) ⟨"https://h", "u", "pw"⟩ "a/y"
     (fun _ => ⟨401, ['x']⟩) (fun l => some l) (by decide) (by decide)⟩

/-! ### Claim C6 -/

theorem stripMagic_append_magic (body : List Char) :
    stripMagic (magicChars ++ body) = body := by
  simp [magicChars, stripMagic]

theorem stripMagic_of_couldBeJson : ∀ {j : List Char}, couldBeJson j = true →
    stripMagic j = j := by
  intro j h
  cases j with
  | nil => rfl
  | cons a t1 =>
    cases t1 with
    | nil => rfl
    | cons b t2 =>
      cases t2 with
      | nil => rfl
      | cons c t3 =>
        cases t3 with
        | nil => rfl
        | cons d rest =>
          simp only [stripMagic]
          by_cases hcond : a = ')' ∧ b = ']' ∧ c = rightBrace ∧ d = magicQuote
          · obtain ⟨ha, _, _, _⟩ := hcond
            subst ha
            exact absurd h (by intro hh; exact Bool.noConfusion hh)
          · rw [if_neg hcond]

theorem handleResponse_magic {δ : Type} (parse : List Char → Option δ) (status : Nat)
    (j : List Char) (h401 : status ≠ 401) (h400 : status < 400)
    (hjson : couldBeJson j = true) :
    handleResponse ⟨status, magicChars ++ j⟩ parse = handleResponse ⟨status, j⟩ parse := by
  unfold handleResponse
  rw [if_neg h401, if_neg h401, if_neg (by omega : ¬ 400 ≤ status),
    if_neg (by omega : ¬ 400 ≤ status)]
  rw [show (HttpResponse.mk status (magicChars ++ j)).body = magicChars ++ j from rfl,
    show (HttpResponse.mk status j).body = j from rfl,
    stripMagic_append_magic, stripMagic_of_couldBeJson hjson]

/-- C6: for every body `j` that can be valid JSON (a valid JSON document never
begins with `)`, hence never with the magic sequence), the request primitive
treats `)]}'` ++ `j` exactly as `j` on a successful response, and the magic
four-character guard is always stripped from the front of the body before the
JSON decode. -/
theorem c6_magic_stripped :
    (∀ (δ : Type) (gctx : GerritContext) (endpoint : String)
      (parse : List Char → Option δ) (status : Nat) (j : List Char),
      gctx.http_password ≠ "" → status ≠ 401 → status < 400 →
      couldBeJson j = true →
      make_gerrit_rest_request gctx endpoint (fun _ => ⟨status, magicChars ++ j⟩) parse =
        make_gerrit_rest_request gctx endpoint (fun _ => ⟨status, j⟩) parse) ∧
    (∀ body : List Char, stripMagic (magicChars ++ body) = body) := by
  constructor
  · intro δ gctx ep parse status j hpw h401 h400 hjson
    unfold make_gerrit_rest_request
    rw [if_neg hpw, if_neg hpw]
    exact handleResponse_magic parse status j h401 h400 hjson
  · exact stripMagic_append_magic

/-- C6 witness: the concrete body `1` (a valid JSON document), with and without
the magic guard, through a successful 200 response. -/
theorem c6_witness :
    (("pw" : String) ≠ "") ∧ ((200 : Nat) ≠ 401) ∧ ((200 : Nat) < 400) ∧
    couldBeJson ['1'] = true ∧
    make_gerrit_rest_request ⟨"https://h", "u", "pw"⟩ "e"
        (fun _ => ⟨200, magicChars ++ ['1']⟩) (fun l => some l) =
      make_gerrit_rest_request ⟨"https://h", "u", "pw"⟩ "e"
        (fun _ => ⟨200, ['1']⟩) (fun l => some l) ∧
    stripMagic (magicChars ++ ['1']) = ['1'] :=
  ⟨by decide, by decide, by decide, by decide,
   c6_magic_stripped.1 (List Char) ⟨"https://h", "u", "pw"⟩ "e" (fun l => some l)
     200 ['1'] (by decide) (by decide) (by decide) (by decide),
   c6_magic_stripped.2 ['1']⟩

/-! ### Claims C7 and C8 -/

def resX2 : ChangeResult Unit :=
  ⟨cdX, "proj0", "r2", riX2, [⟨"b.txt", "MODIFIED", 1, 2, 3, ()⟩]⟩

/-- C7: whenever the change URL's path has a `+` segment at position > 1, the
segments between the leading segment and `+` form the project path and the ssh
clone URL is `ssh://{user@}{host}:29418/{project}.git`; in particular the
claim's concrete scenario for "alice". -/
theorem c7_ssh_clone_url :
    (∀ (δ : Type) (net : GerritNet δ) (user url : String)
      (scheme host path : List Char) (parts : List String),
      parseUrl url.toList = (scheme, host, path) →
      parts = (splitChar '/' (stripSlashes path)).map String.mk →
      plusIdxInt parts > 1 →
      (plusIdxInt parts).toNat + 1 < parts.length →
      get_repository_path_from_change net user url "ssh" =
        .ok ("ssh://" ++ (if user = "" then "" else user ++ "@") ++ String.mk host ++
          ":29418/" ++
          String.intercalate "/" ((parts.drop 1).take ((plusIdxInt parts).toNat - 1)) ++
          ".git")) ∧
    (∀ net : GerritNet Unit,
      get_repository_path_from_change net "alice" "http://host/c/proj/sub/+/777" "ssh" =
        .ok "ssh://alice@host:29418/proj/sub.git") := by
  constructor
  · intro δ net user url scheme host path parts hurl hparts hplus hlen
    unfold get_repository_path_from_change
    rw [hurl, ← hparts]
    unfold deriveCloneFromParts
    rw [if_pos hplus, List.getElem?_eq_getElem hlen]
    simp [wrapUrlError, formatCloneUrl]
  · intro net
    rfl

/-- C7 witness: the concrete scenario, both through the general conjunct (with
every hypothesis discharged by evaluation) and through the scenario conjunct. -/
theorem c7_witness :
    parseUrl ("http://host/c/proj/sub/+/777" : String).toList =
      ("http".toList, "host".toList, "/c/proj/sub/+/777".toList) ∧
    (["c", "proj", "sub", "+", "777"] : List String) =
      (splitChar '/' (stripSlashes ("/c/proj/sub/+/777" : String).toList)).map String.mk ∧
    plusIdxInt ["c", "proj", "sub", "+", "777"] > 1 ∧
    (plusIdxInt ["c", "proj", "sub", "+", "777"]).toNat + 1 <
      (["c", "proj", "sub", "+", "777"] : List String).length ∧
    get_repository_path_from_change netX "alice" "http://host/c/proj/sub/+/777" "ssh" =
      .ok "ssh://alice@host:29418/proj/sub.git" :=
  ⟨by decide, by decide, by decide, by decide,
   c7_ssh_clone_url.1 Unit netX "alice" "http://host/c/proj/sub/+/777"
     "http".toList "host".toList "/c/proj/sub/+/777".toList
     ["c", "proj", "sub", "+", "777"] (by decide) (by decide) (by decide) (by decide)⟩

/-- C8: when the path has no `+` segment at position > 1, the final path segment
is taken as the change id and the project is discovered through a full
`fetch_gerrit_change` lookup rather than failing; in particular
`http://host/c/+/777` triggers a change lookup for id "777". -/
theorem c8_fallback_lookup :
    (∀ (δ : Type) (net : GerritNet δ) (user clone_url_type url : String)
      (scheme host path : List Char) (parts : List String) (cr : ChangeResult δ),
      parseUrl url.toList = (scheme, host, path) →
      parts = (splitChar '/' (stripSlashes path)).map String.mk →
      ¬ plusIdxInt parts > 1 →
      fetch_gerrit_change net (parts.getLastD "") none = .ok cr →
      get_repository_path_from_change net user url clone_url_type =
        .ok (formatCloneUrl clone_url_type (String.mk scheme) user (String.mk host)
          cr.project)) ∧
    (∀ (net : GerritNet Unit) (cr : ChangeResult Unit),
      fetch_gerrit_change net "777" none = .ok cr →
      get_repository_path_from_change net "alice" "http://host/c/+/777" "http" =
        .ok ("http://alice@host/a/" ++ cr.project ++ ".git")) := by
  have h1 : ∀ (δ : Type) (net : GerritNet δ) (user clone_url_type url : String)
      (scheme host path : List Char) (parts : List String) (cr : ChangeResult δ),
      parseUrl url.toList = (scheme, host, path) →
      parts = (splitChar '/' (stripSlashes path)).map String.mk →
      ¬ plusIdxInt parts > 1 →
      fetch_gerrit_change net (parts.getLastD "") none = .ok cr →
      get_repository_path_from_change net user url clone_url_type =
        .ok (formatCloneUrl clone_url_type (String.mk scheme) user (String.mk host)
          cr.project) := by
    intro δ net user t url scheme host path parts cr hurl hparts hplus hfetch
    unfold get_repository_path_from_change
    rw [hurl, ← hparts]
    unfold deriveCloneFromParts
    rw [if_neg hplus, hfetch]
    rfl
  refine ⟨h1, ?_⟩
  intro net cr hfetch
  exact h1 Unit net "alice" "http" "http://host/c/+/777" "http".toList "host".toList
    "/c/+/777".toList ["c", "+", "777"] cr (by decide) (by decide) (by decide) hfetch

/-- C8 witness: on `netX` the fallback URL `http://host/c/+/777` resolves the
project by looking up change "777". -/
theorem c8_witness :
    fetch_gerrit_change netX "777" none = .ok resX2 ∧
    get_repository_path_from_change netX "alice" "http://host/c/+/777" "http" =
      .ok "http://alice@host/a/proj0.git" :=
  ⟨by decide, c8_fallback_lookup.2 netX resX2 (by decide)⟩

/-! ### Claim C9 -/

/-- C9: the optional `file_path` argument of `fetch_patchset_diff` has no effect
on the result — after the log line the source never consults it, so for a fixed
backend environment the output is identical whether it is supplied or omitted. -/
theorem c9_file_path_no_effect :
    ∀ (δ : Type) (net : GerritNet δ) (change_id base_patchset target_patchset : String)
      (file_path : Option String),
      fetch_patchset_diff net change_id base_patchset target_patchset file_path =
        fetch_patchset_diff net change_id base_patchset target_patchset none := by
  intro δ net cid bp tp fp
  rfl

/-! ### Claim C10 -/

theorem processChangeFiles_error_api {δ : Type} {net : GerritNet δ}
    {change_id target_revision : String} :
    ∀ {files : List (String × FileInfo)} {e : GerritError},
    processChangeFiles net change_id target_revision files = .error e →
    ∃ a, e = .api a := by
  intro files
  induction files with
  | nil => intro e h; simp [processChangeFiles] at h
  | cons hd tl ih =>
    intro e h
    obtain ⟨fpath, finfo⟩ := hd
    by_cases hc : fpath = "/COMMIT_MSG"
    · simp only [processChangeFiles, if_pos hc] at h
      exact ih h
    · simp only [processChangeFiles, if_neg hc] at h
      cases hnd : net.diff (fileDiffEndpoint change_id target_revision fpath) with
      | error a =>
        rw [hnd] at h
        injection h with h'
        exact ⟨a, h'.symm⟩
      | ok d =>
        rw [hnd] at h
        cases hrec : processChangeFiles net change_id target_revision tl with
        | error e2 =>
          rw [hrec] at h
          injection h with h'
          subst h'
          exact ih hrec
        | ok out => rw [hrec] at h; cases h

theorem resolveRevision_none_cases (D : ChangeDetail) :
    resolveRevision D none = .ok D.current_revision ∨
    resolveRevision D none = .error .revisionNotFound := by
  by_cases h : ((D.current_revision == "") ||
      !(D.revisions.any fun kv => kv.1 == D.current_revision)) = true
  · right
    simp [resolveRevision, optTruthy, h]
  · left
    simp [resolveRevision, optTruthy, h]

theorem fetch_gerrit_change_none_no_patchsetNotFound {δ : Type} (net : GerritNet δ)
    (change_id : String) (p : String) (avail : List String) :
    fetch_gerrit_change net change_id none ≠ .error (.patchsetNotFound p avail) := by
  intro h
  cases h1 : net.change (changeDetailEndpoint change_id) with
  | error e => simp [fetch_gerrit_change, h1] at h
  | ok oc =>
    cases oc with
    | none => simp [fetch_gerrit_change, h1] at h
    | some ci =>
      simp only [fetch_gerrit_change, h1] at h
      by_cases hp : ci.project = ""
      · simp [if_pos hp] at h
      · rw [if_neg hp] at h
        rcases resolveRevision_none_cases ci with h2 | h2
        · simp only [h2] at h
          cases h3 : List.lookup ci.current_revision ci.revisions with
          | none => simp [h3] at h
          | some ri =>
            simp only [h3] at h
            cases h4 : processChangeFiles net change_id ci.current_revision ri.files with
            | error e =>
              simp only [h4] at h
              obtain ⟨a, rfl⟩ := processChangeFiles_error_api h4
              simp at h
            | ok out => simp [h4] at h
        · simp [h2] at h

/-- C10: calling `fetch_gerrit_change` with the empty string as the patchset
number behaves exactly as calling it with the number absent — only a truthy
(non-empty) patchset number enters the sequence-number scan — and in particular
it can never fail with `PatchsetNotFoundError`. -/
theorem c10_empty_patchset_like_absent :
    ∀ (δ : Type) (net : GerritNet δ) (change_id : String),
      fetch_gerrit_change net change_id (some "") =
        fetch_gerrit_change net change_id none ∧
      ∀ (p : String) (avail : List String),
        fetch_gerrit_change net change_id (some "") ≠
          .error (.patchsetNotFound p avail) := by
  intro δ net cid
  have heq : fetch_gerrit_change net cid (some "") = fetch_gerrit_change net cid none := rfl
  exact ⟨heq, fun p avail h =>
    fetch_gerrit_change_none_no_patchsetNotFound net cid p avail (heq.symm.trans h)⟩

/-- C10 witness: the theorem applied on the concrete environment `netX`. -/
theorem c10_witness :
    fetch_gerrit_change netX "500" (some "") = fetch_gerrit_change netX "500" none ∧
    fetch_gerrit_change netX "500" (some "") ≠ .error (.patchsetNotFound "" ["1", "2"]) :=
  ⟨(c10_empty_patchset_like_absent Unit netX "500").1,
   (c10_empty_patchset_like_absent Unit netX "500").2 "" ["1", "2"]⟩

end Gerrit
